import Mathlib

/-!
# c-server: shallow embedding of `src/server.c`

Bytes are natural numbers (`'\n'` is 10, `'\r'` is 13, the string terminator is 0) and a
C string is the list of bytes in front of its terminator.  A stream opened on a socket is
the list of bytes the peer sends before it closes its write side.  System calls whose
outcome the program cannot control (dup, dup2, fdopen, accept, fork, ...) take their
outcome from an explicit environment.  Loops that the C code runs until a condition
holds are given a step budget (`fuel`); the theorems show which budget is enough.
-/

set_option autoImplicit false

namespace CServer

/-! ## Constants -/

/-- Bytes of an ASCII string literal. -/
def bytes (s : String) : List Nat := s.toList.map Char.toNat

/-- `#define CRLF "\r\n"` of include/server.h. -/
def CRLF : List Nat := bytes "\r\n"

/-- Modelled from the spec: the macro SYSCALL_ERROR is declared in include/utils.h, which
is not among the sources; it is the value -1 that the claims name as the error value of a
system call. -/
def SYSCALL_ERROR : Int := -1

/-- `EXIT_FAILURE` of stdlib.h. -/
def EXIT_FAILURE : Int := 1

/-- `EXIT_SUCCESS` of stdlib.h. -/
def EXIT_SUCCESS : Int := 0

/-- `STDOUT_FILENO` of unistd.h. -/
def STDOUT_FILENO : Int := 1

/-- `EINTR` of errno.h. -/
def EINTR : Nat := 4

/-! ## C strings and printf conversions -/

/-- The C string held in a buffer: the bytes in front of the first NUL (the end of the
list stands for the terminator that follows the data). -/
def cstr (buf : List Nat) : List Nat := buf.takeWhile (fun b => b ≠ 0)

/-- `strlen`. -/
def strlen (buf : List Nat) : Nat := (cstr buf).length

/-- `strcmp`: the difference of the first pair of bytes that differ, 0 when both strings
end together.  The end of a list is read as the NUL terminator. -/
def strcmp : List Nat → List Nat → Int
  | [], [] => 0
  | [], b :: _ => 0 - (b : Int)
  | a :: _, [] => (a : Int)
  | a :: as, b :: bs =>
    if a ≠ b then (a : Int) - (b : Int)
    else if a = 0 then 0
    else strcmp as bs

/-- `%ld` / `%d` of a non-negative value. -/
def fmt_ld (n : Nat) : List Nat := (Nat.toDigits 10 n).map Char.toNat

/-- `%d` of an int. -/
def fmt_d (i : Int) : List Nat :=
  if i < 0 then 45 :: fmt_ld i.natAbs else fmt_ld i.natAbs

/-! ## getline and the read loop of handle_request -/

/-- The bytes getline stores for one line, and the bytes left in the stream: the line
runs up to and including the first LF, or to the end of the stream. -/
def read_line : List Nat → List Nat × List Nat
  | [] => ([], [])
  | b :: bs =>
    if b = 10 then ([b], bs)
    else (b :: (read_line bs).1, (read_line bs).2)

/-- `getline(&line, &size, network)` with `line == NULL` on entry: the return value
(-1 at end of stream, else the number of bytes stored), the line and the stream after
the call. -/
def getline (network : List Nat) : Int × List Nat × List Nat :=
  match network with
  | [] => (-1, [], [])
  | _ :: _ => (((read_line network).1.length : Nat), (read_line network).1, (read_line network).2)

/-- The text of `printf("Received %ld (%ld): %s", size, strlen(line), line)`. -/
def report (size : Nat) (line : List Nat) : List Nat :=
  bytes "Received " ++ fmt_ld size ++ bytes " (" ++ fmt_ld (strlen line) ++ bytes "): "
    ++ cstr line

/-- What the read loop did: the line of each execution of the loop body, the text each
of them printed, the number of getline calls, and the bytes of the stream no getline
call consumed. -/
structure ReadLoop where
  lines : List (List Nat)
  log : List (List Nat)
  calls : Nat
  network : List Nat
deriving DecidableEq, Repr

/-- The loop
`while ((num = getline(&line, &size, network)) >= 0 && strcmp(line, CRLF)) { printf(...); }`
of handle_request.  `size` is the capacity getline allocates for a line (libc's choice). -/
def read_loop (size : List Nat → Nat) : Nat → List Nat → Option ReadLoop
  | 0, _ => none
  | fuel + 1, network =>
    let r := getline network
    if 0 ≤ r.1 ∧ strcmp r.2.1 CRLF ≠ 0 then
      (read_loop size fuel r.2.2).map fun t =>
        { lines := r.2.1 :: t.lines
          log := report (size r.2.1) r.2.1 :: t.log
          calls := t.calls + 1
          network := t.network }
    else
      some { lines := [], log := [], calls := 1, network := r.2.2 }

/-- The lines of a byte stream as the claim words them: each line runs up to and
including the first LF, the last line may lack one. -/
def split_lines : List Nat → List (List Nat)
  | [] => []
  | b :: bs =>
    if b = 10 then [b] :: split_lines bs
    else
      match split_lines bs with
      | [] => [[b]]
      | l :: ls => (b :: l) :: ls

/-! ## Events -/

/-- The open file that a descriptor refers to: the standard output of the process (the
file behind descriptor 1 when that is not the connection), the connection, or anything
else (another file, or no open file). -/
inductive Dest
  | original
  | connection
  | other
deriving DecidableEq, Repr

/-- Calls that the program makes, in program order.  `write` is a printf on the
unbuffered stdout (server calls `setbuf(stdout, NULL)` first), so its bytes reach the
open file behind descriptor 1 at once. -/
inductive Event
  | chdir (cwd : String) (ret : Int)
  | socket (ret : Int)
  | setsockopt (fd : Int) (ret : Int)
  | bind (fd : Int) (sin_port : Nat) (ret : Int)
  | listen (fd : Int) (backlog : Int) (ret : Int)
  | sigaction (ret : Int)
  | dup (fd : Int) (ret : Int)
  | dup2 (oldfd : Int) (newfd : Int) (ret : Int)
  | fdopen (fd : Int) (ok : Bool)
  | getline
  | write (dest : Dest) (text : List Nat)
  | perror (msg : String)
  | close (fd : Int)
  | fclose (fd : Int)
  | exit (status : Int)
deriving DecidableEq, Repr

/-- The first printf of handle_request (two adjacent string literals). -/
def response_header : List Nat :=
  bytes ("HTTP/1.1 200 OK\r\nContent-Type: text/plain\r\nContent-Length: " ++ "14\r\n\r\n")

/-- The second printf of handle_request. -/
def response_body : List Nat := bytes "Network socket"

/-- What the worker's system gives handle_request: the return values of dup and of the
two dup2 calls, whether fdopen returns a stream, the bytes the client sends, and the
capacity getline allocates for a line. -/
structure HandleEnv where
  dup_stdout : Int
  dup2_redirect : Int
  dup2_restore : Int
  fdopen_ok : Bool
  stream : List Nat
  size : List Nat → Nat

/-- How a function call ended. -/
inductive Outcome
  | returned
  | exited (status : Int)
deriving DecidableEq, Repr

/-- A finished call: its events and how it ended. -/
structure Run where
  trace : List Event
  outcome : Outcome
deriving DecidableEq, Repr

/-- The descriptors of a worker when it enters handle_request(new_sock_fd): the
descriptor new_sock_fd is the connection, and descriptor 1, when it is another
descriptor, is the standard output the process was started with. -/
def fd_table (new_sock_fd : Int) : Int → Dest :=
  fun fd =>
    if fd = new_sock_fd then Dest.connection
    else if fd = STDOUT_FILENO then Dest.original
    else Dest.other

/-- The descriptors after a successful `dup2(oldfd, newfd)`: newfd refers to the file of
oldfd.  A successful `dup(oldfd)` that returns newfd has the same effect. -/
def fd_dup2 (table : Int → Dest) (oldfd newfd : Int) : Int → Dest :=
  fun fd => if fd = newfd then table oldfd else table fd

/-- A call of printf while descriptor 1 refers to `stdout_now`. -/
def printf (stdout_now : Dest) (text : List Nat) : Event := Event.write stdout_now text

/-- The events of the read loop while descriptor 1 refers to `stdout_now`: each loop
body follows the getline call that let it run, and one more getline call ends the
loop. -/
def loop_events (stdout_now : Dest) (t : ReadLoop) : List Event :=
  (t.log.flatMap fun text => [Event.getline, printf stdout_now text]) ++ [Event.getline]

/-- The function `handle_request(new_sock_fd)`; none when the step budget of the read
loop runs out. -/
def handle_request (env : HandleEnv) (fuel : Nat) (new_sock_fd : Int) : Option Run :=
  let stdout_fd := env.dup_stdout
  if stdout_fd = SYSCALL_ERROR then
    some { trace := [.dup STDOUT_FILENO stdout_fd,
                     .perror "Error duplicating the stdout file descriptor",
                     .exit EXIT_FAILURE]
           outcome := .exited EXIT_FAILURE }
  else
  -- dup(STDOUT_FILENO) succeeded: stdout_fd refers to the file of descriptor 1
  let duplicated := fd_dup2 (fd_table new_sock_fd) STDOUT_FILENO stdout_fd
  if env.dup2_redirect = SYSCALL_ERROR then
    some { trace := [.dup STDOUT_FILENO stdout_fd,
                     .dup2 new_sock_fd STDOUT_FILENO env.dup2_redirect,
                     .perror "Error redirecting stdout to the network socket",
                     .exit EXIT_FAILURE]
           outcome := .exited EXIT_FAILURE }
  else
    -- dup2(new_sock_fd, STDOUT_FILENO) succeeded: descriptor 1 refers to the file of
    -- new_sock_fd
    let redirected := fd_dup2 duplicated new_sock_fd STDOUT_FILENO
    let stdout_now := redirected STDOUT_FILENO
    let sent : List Event :=
      [.dup STDOUT_FILENO stdout_fd,
       .dup2 new_sock_fd STDOUT_FILENO env.dup2_redirect,
       printf stdout_now response_header,
       printf stdout_now response_body,
       .dup2 stdout_fd STDOUT_FILENO env.dup2_restore]
    if env.dup2_restore = SYSCALL_ERROR then
      some { trace := sent ++ [.perror "Error restoring the stdout file descriptor",
                               .exit EXIT_FAILURE]
             outcome := .exited EXIT_FAILURE }
    else if env.fdopen_ok = false then
      some { trace := sent ++ [.fdopen new_sock_fd false,
                               .perror "Error opening the socket as a file stream",
                               .close new_sock_fd,
                               .exit EXIT_FAILURE]
             outcome := .exited EXIT_FAILURE }
    else
      -- dup2(stdout_fd, STDOUT_FILENO) succeeded: descriptor 1 refers to the file of
      -- stdout_fd
      let restored := fd_dup2 redirected stdout_fd STDOUT_FILENO
      let stdout_now := restored STDOUT_FILENO
      match read_loop env.size fuel env.stream with
      | none => none
      | some t =>
        some { trace := sent ++ [.fdopen new_sock_fd true] ++ loop_events stdout_now t
                          ++ [.fclose new_sock_fd]
               outcome := .returned }

/-! ## A reader of the response (for the Content-Length claim) -/

/-- One call of accept: a new descriptor, or failure with an errno value. -/
inductive AcceptOutcome
  | ok (fd : Nat)
  | fail (errno : Nat)
deriving DecidableEq, Repr

/-- The call `accept(sock_fd, ...)`: the return value and errno after the call (errno
keeps its value when the call succeeds). -/
def accept (o : AcceptOutcome) (errno : Nat) : Int × Nat :=
  match o with
  | .ok fd => ((fd : Int), errno)
  | .fail e => (-1, e)

/-- How accept_connection ended: it returned new_fd, it terminated the process, or it
waits in accept with no outcome left; `calls` counts the accept calls made and `rest`
is the outcomes not consumed. -/
inductive Accepted
  | returned (new_fd : Int) (calls : Nat) (rest : List AcceptOutcome)
  | exited (status : Int) (calls : Nat)
  | blocked (calls : Nat)
deriving DecidableEq, Repr

/-- The loop `while (errno == EINTR)` of accept_connection, from a state with the given
errno and new_fd. -/
def accept_loop : List AcceptOutcome → Nat → Int → Nat → Accepted
  | [], errno, new_fd, calls =>
    if errno = EINTR then .blocked calls else .returned new_fd calls []
  | o :: os, errno, new_fd, calls =>
    if errno = EINTR then
      let r := accept o errno
      if r.1 = SYSCALL_ERROR ∧ r.2 ≠ EINTR then .exited EXIT_FAILURE (calls + 1)
      else if r.1 ≠ SYSCALL_ERROR then .returned r.1 (calls + 1) os
      else accept_loop os r.2 r.1 (calls + 1)
    else .returned new_fd calls (o :: os)

/-- The function `accept_connection(sock_fd)`; `uninit` is the indeterminate value of
the local `new_fd` before the first assignment. -/
def accept_connection (outcomes : List AcceptOutcome) (uninit : Int) : Accepted :=
  accept_loop outcomes EINTR uninit 0

/-! ## handle_sigchld -/

/-- The children of the process: pids of the terminated workers not yet reclaimed and
of the workers still running. -/
structure Children where
  terminated : List Nat
  running : List Nat
deriving DecidableEq, Repr

/-- The call `waitpid(-1, NULL, WNOHANG)`: reclaims one terminated child and returns its
pid; returns 0 when children exist but none has terminated, -1 when there is no child. -/
def waitpid (c : Children) : Int × Children :=
  match c.terminated with
  | pid :: rest => ((pid : Int), { c with terminated := rest })
  | [] =>
    match c.running with
    | [] => (-1, c)
    | _ :: _ => (0, c)

/-- The function `handle_sigchld`: `while (waitpid(-1, NULL, WNOHANG) > 0);`.  Returns the
children afterwards and the number of waitpid calls; none when the budget runs out. -/
def handle_sigchld : Nat → Children → Option (Children × Nat)
  | 0, _ => none
  | fuel + 1, c =>
    let r := waitpid c
    if r.1 > 0 then (handle_sigchld fuel r.2).map fun t => (t.1, t.2 + 1)
    else some (r.2, 1)

/-! ## run_service -/

/-- The descriptor table after `close(fd)`. -/
def fd_close (open_fds : List Int) (fd : Int) : List Int :=
  open_fds.filter fun x => decide (x ≠ fd)

/-- One call of fork: failure, or a child with the given pid; `handler` is how the call
of handle_request in that child will end. -/
inductive ForkOutcome
  | fail
  | ok (pid : Nat) (handler : Outcome)
deriving DecidableEq, Repr

/-- A process after the if/else that follows fork in run_service: the descriptors it
got from the parent or from accept that it still holds, its exit status when it has
exited, and, when it called handle_request, the handle it passed together with the
descriptors it held at that call.  (The descriptors that handle_request opens for
itself are not counted.) -/
structure Proc where
  open_fds : List Int
  status : Option Int
  handled : Option (Int × List Int)
deriving DecidableEq, Repr

/-- The if/else after `pid_t pid = fork();` in a process that holds the descriptors
`open_fds` and sees the return value `pid`; `handler` is how handle_request ends when
this process is the child. -/
def after_fork (sock_fd new_sock_fd pid : Int) (open_fds : List Int) (handler : Outcome) :
    Proc :=
  if pid = SYSCALL_ERROR then
    -- perror; close(new_sock_fd); exit(EXIT_FAILURE)
    { open_fds := fd_close open_fds new_sock_fd, status := some EXIT_FAILURE, handled := none }
  else if pid = 0 then
    -- close(sock_fd); handle_request(new_sock_fd); close(new_sock_fd); exit(EXIT_SUCCESS)
    let at_handle := fd_close open_fds sock_fd
    match handler with
    | .exited status =>
      { open_fds := at_handle, status := some status, handled := some (new_sock_fd, at_handle) }
    | .returned =>
      { open_fds := fd_close at_handle new_sock_fd
        status := some EXIT_SUCCESS
        handled := some (new_sock_fd, at_handle) }
  else
    -- close(new_sock_fd)
    { open_fds := fd_close open_fds new_sock_fd, status := none, handled := none }

/-- The parent process in run_service: its open descriptors, the outcomes that its
coming accept and fork calls will have, and the workers created so far (each as the
result of after_fork in the child). -/
structure Service where
  open_fds : List Int
  accepts : List AcceptOutcome
  forks : List ForkOutcome
  workers : List Proc
deriving DecidableEq, Repr

/-- Where the parent is after a number of iterations: still in the loop, terminated
inside accept_connection, terminated in the if/else after fork (with the handle it had
accepted and its state at exit), or waiting for an outcome the environment lacks. -/
inductive Served
  | running (s : Service)
  | accept_exit (s : Service) (status : Int)
  | exited (s : Service) (new_sock_fd : Int) (parent : Proc)
  | blocked (s : Service)
deriving DecidableEq, Repr

/-- The value fork returns in the parent. -/
def fork_parent : ForkOutcome → Int
  | .fail => -1
  | .ok pid _ => (pid : Int)

/-- The loop `while (true)` of run_service, run for `n` iterations of the parent.  accept
installs the new descriptor in the table of the parent; a successful fork gives the
child a copy of that table and returns 0 there.  (The parent never calls
handle_request when fork returns a pid or -1, so the handler argument of after_fork
plays no part for it.) -/
def run_service (sock_fd uninit : Int) : Nat → Service → Served
  | 0, s => .running s
  | n + 1, s =>
    match accept_connection s.accepts uninit with
    | .exited status _ => .accept_exit s status
    | .blocked _ => .blocked s
    | .returned new_sock_fd _ rest =>
      let open_fds := new_sock_fd :: s.open_fds
      match s.forks with
      | [] => .blocked { s with accepts := rest, open_fds := open_fds }
      | f :: fs =>
        let parent := after_fork sock_fd new_sock_fd (fork_parent f) open_fds .returned
        let workers :=
          match f with
          | .fail => s.workers
          | .ok _ handler => s.workers ++ [after_fork sock_fd new_sock_fd 0 open_fds handler]
        match parent.status with
        | some _ =>
          .exited { open_fds := open_fds, accepts := rest, forks := fs, workers := workers }
            new_sock_fd parent
        | none =>
          run_service sock_fd uninit n
            { open_fds := parent.open_fds, accepts := rest, forks := fs, workers := workers }

/-! ## create_service and server -/

/-- The conversion of an int to `short` at the call `create_service(port, queue_size)`:
the value modulo 2^16 in the range of a 16-bit two's complement integer. -/
def int_to_short (x : Int) : Int := (x + 32768) % 65536 - 32768

/-- The conversion of a short to the `uint16_t` parameter of htons. -/
def short_to_uint16 (x : Int) : Nat := (x % 65536).toNat

/-- The function `htons` (and `ntohs`): the two bytes swapped on a little-endian host,
the identity on a big-endian host. -/
def htons (little_endian : Bool) (x : Nat) : Nat :=
  if little_endian then (x % 256) * 256 + x / 256 % 256 else x

/-- The function `ntohs`, the same byte operation as htons. -/
def ntohs (little_endian : Bool) (x : Nat) : Nat := htons little_endian x

/-- The two bytes of a uint16_t object in memory, lowest address first. -/
def uint16_memory (little_endian : Bool) (x : Nat) : List Nat :=
  if little_endian then [x % 256, x / 256 % 256] else [x / 256 % 256, x % 256]

/-- The text of `printf("Server listening on port: %d\n", port)`. -/
def status_line (port : Int) : List Nat :=
  bytes "Server listening on port: " ++ fmt_d port ++ bytes "\n"

/-- What the system gives the start-up code: the byte order of the host and the return
values of chdir, socket, setsockopt, bind, listen (which may depend on the descriptor
and the backlog) and sigaction. -/
structure SysEnv where
  little_endian : Bool
  chdir : Int
  socket : Int
  setsockopt : Int
  bind : Int
  listen : Int → Int → Int
  sigaction : Int

/-- The function `create_service(port, queue_size)`; `port` is the value of the short
parameter.  It returns the socket descriptor or terminates the process. -/
def create_service (env : SysEnv) (port : Int) (queue_size : Int) : Run × Option Int :=
  let sin_port := htons env.little_endian (short_to_uint16 port)
  let sock_fd := env.socket
  if sock_fd = SYSCALL_ERROR then
    ({ trace := [.socket sock_fd, .perror "Error creating the server socket",
                 .exit EXIT_FAILURE]
       outcome := .exited EXIT_FAILURE }, none)
  else if env.setsockopt = SYSCALL_ERROR then
    ({ trace := [.socket sock_fd, .setsockopt sock_fd env.setsockopt,
                 .perror "Error setting the server socket options", .exit EXIT_FAILURE]
       outcome := .exited EXIT_FAILURE }, none)
  else if env.bind = SYSCALL_ERROR then
    ({ trace := [.socket sock_fd, .setsockopt sock_fd env.setsockopt,
                 .bind sock_fd sin_port env.bind,
                 .perror "Error binding the server socket to the address",
                 .exit EXIT_FAILURE]
       outcome := .exited EXIT_FAILURE }, none)
  else if env.listen sock_fd queue_size = SYSCALL_ERROR then
    ({ trace := [.socket sock_fd, .setsockopt sock_fd env.setsockopt,
                 .bind sock_fd sin_port env.bind,
                 .listen sock_fd queue_size (env.listen sock_fd queue_size),
                 .perror "Error listening on the server socket", .exit EXIT_FAILURE]
       outcome := .exited EXIT_FAILURE }, none)
  else if env.sigaction = SYSCALL_ERROR then
    ({ trace := [.socket sock_fd, .setsockopt sock_fd env.setsockopt,
                 .bind sock_fd sin_port env.bind,
                 .listen sock_fd queue_size (env.listen sock_fd queue_size),
                 .sigaction env.sigaction,
                 .perror "Error setting the server SIGCHLD signal handler ",
                 .exit EXIT_FAILURE]
       outcome := .exited EXIT_FAILURE }, none)
  else
    ({ trace := [.socket sock_fd, .setsockopt sock_fd env.setsockopt,
                 .bind sock_fd sin_port env.bind,
                 .listen sock_fd queue_size (env.listen sock_fd queue_size),
                 .sigaction env.sigaction,
                 .write .original (status_line port)]
       outcome := .returned }, some sock_fd)

/-- How far `server(cwd, port, queue_size)` gets: the events up to the call of
run_service, and the descriptor run_service is called with, or none when the process
was terminated before that call. -/
structure Startup where
  trace : List Event
  serving : Option Int
deriving DecidableEq, Repr

/-- The function `server(cwd, port, queue_size)` up to its call `run_service(fd)`. -/
def server (env : SysEnv) (cwd : String) (port : Int) (queue_size : Int) : Startup :=
  if env.chdir = SYSCALL_ERROR then
    { trace := [.chdir cwd env.chdir, .perror "Error changing directory", .exit EXIT_FAILURE]
      serving := none }
  else
    let created := create_service env (int_to_short port) queue_size
    { trace := [.chdir cwd env.chdir,
                .write .original (bytes "Changed working directory to: " ++ bytes cwd ++ bytes "\n")]
               ++ created.1.trace
      serving := created.2 }

/-- A little-endian host on which every start-up call succeeds: socket returns
descriptor 3 and the other calls return 0, listen for every backlog. -/
def env_all_succeed : SysEnv :=
  { little_endian := true, chdir := 0, socket := 3, setsockopt := 0, bind := 0,
    listen := fun _ _ => 0, sigaction := 0 }

/-! ## Predicates used in the statements -/

/-- A worker as the claim describes it: it ran handle_request on a handle that the
parent does not keep, and at that call its descriptors were that handle and the
descriptors of the parent other than the listening socket. -/
def worker_ok (sock_fd : Int) (parent_fds : List Int) (w : Proc) : Prop :=
  ∃ conn at_handle, w.handled = some (conn, at_handle) ∧
    sock_fd ∉ at_handle ∧ conn ∈ at_handle ∧ conn ∉ parent_fds ∧
    at_handle = conn :: fd_close parent_fds sock_fd

/-- The state of the parent in each result of run_service. -/
def Served.service : Served → Service
  | .running s => s
  | .accept_exit s _ => s
  | .exited s _ _ => s
  | .blocked s => s

/-! ## Lemmas on lines -/

theorem CRLF_eq : CRLF = [13, 10] := by decide

theorem read_line_append (s : List Nat) : (read_line s).1 ++ (read_line s).2 = s := by
  induction s with
  | nil => rfl
  | cons b bs ih =>
    by_cases h : b = 10
    · simp [read_line, h]
    · simp [read_line, h, ih]

theorem read_line_ne_nil (b : Nat) (bs : List Nat) : (read_line (b :: bs)).1 ≠ [] := by
  by_cases h : b = 10 <;> simp [read_line, h]

theorem read_line_rest_length (b : Nat) (bs : List Nat) :
    (read_line (b :: bs)).2.length ≤ bs.length := by
  induction bs generalizing b with
  | nil => by_cases h : b = 10 <;> simp [read_line, h]
  | cons c cs ih =>
    by_cases h : b = 10
    · simp [read_line, h]
    · have := ih c
      simp only [read_line, h, if_false, List.length_cons]
      simp only [read_line] at this
      omega

/-- An LF inside a line that getline returns is the last byte of the line. -/
theorem read_line_lf_last (s : List Nat) : (10 : Nat) ∉ (read_line s).1.dropLast := by
  induction s with
  | nil => simp [read_line]
  | cons b bs ih =>
    by_cases h : b = 10
    · simp [read_line, h]
    · cases bs with
      | nil => simp [read_line, h]
      | cons c cs =>
        have hne : (read_line (c :: cs)).1 ≠ [] := read_line_ne_nil c cs
        simp only [read_line, h, if_false] at ih ⊢
        obtain ⟨x, xs, hx⟩ := List.exists_cons_of_ne_nil hne
        simp only [read_line] at hx
        rw [hx] at ih ⊢
        simp only [List.dropLast_cons₂, List.mem_cons, not_or]
        exact ⟨fun e => h e.symm, ih⟩

theorem split_lines_cons (b : Nat) (bs : List Nat) :
    split_lines (b :: bs) = (read_line (b :: bs)).1 :: split_lines (read_line (b :: bs)).2 := by
  induction bs generalizing b with
  | nil => by_cases h : b = 10 <;> simp [split_lines, read_line, h]
  | cons c cs ih =>
    by_cases h : b = 10
    · simp [split_lines, read_line, h]
    · have := ih c
      simp only [split_lines, read_line, h, if_false] at this ⊢
      rw [this]

/-- On a line that getline returns, strcmp against CRLF is 0 exactly for the two bytes
CR LF. -/
theorem strcmp_CRLF_iff (l : List Nat) (h : (10 : Nat) ∉ l.dropLast) :
    strcmp l CRLF = 0 ↔ l = CRLF := by
  rw [CRLF_eq]
  constructor
  · intro hs
    match l, h, hs with
    | [], _, hs => simp [strcmp] at hs
    | [a], _, hs =>
      by_cases ha : a = 13
      · subst ha; simp [strcmp] at hs
      · simp [strcmp, ha] at hs; omega
    | [a, b], _, hs =>
      by_cases ha : a = 13
      · subst ha
        by_cases hb : b = 10
        · subst hb; rfl
        · simp [strcmp, hb] at hs; omega
      · simp [strcmp, ha] at hs; omega
    | a :: b :: c :: cs, h, hs =>
      exfalso
      by_cases ha : a = 13
      · subst ha
        by_cases hb : b = 10
        · subst hb; simp at h
        · simp [strcmp, hb] at hs; omega
      · simp [strcmp, ha] at hs; omega
  · intro e; subst e; decide

theorem cstr_of_no_nul (l : List Nat) (h : (0 : Nat) ∉ l) : cstr l = l := by
  unfold cstr
  rw [List.takeWhile_eq_self_iff]
  intro x hx
  simp only [ne_eq, decide_not, Bool.not_eq_true', decide_eq_false_iff_not]
  intro e; subst e; exact h hx

theorem mem_split_lines_sub (s : List Nat) :
    ∀ l ∈ split_lines s, ∀ x ∈ l, x ∈ s := by
  induction s with
  | nil => simp [split_lines]
  | cons b bs ih =>
    intro l hl x hx
    by_cases h : b = 10
    · simp only [split_lines, h, if_true, List.mem_cons] at hl
      rcases hl with e | hl
      · subst e; simp at hx; simp [hx, h]
      · exact List.mem_cons_of_mem _ (ih l hl x hx)
    · simp only [split_lines, h, if_false] at hl
      cases hsp : split_lines bs with
      | nil => rw [hsp] at hl; simp at hl; subst hl; simp at hx; simp [hx]
      | cons m ms =>
        rw [hsp] at hl ih
        simp only [List.mem_cons] at hl
        rcases hl with e | hl
        · subst e
          simp only [List.mem_cons] at hx
          rcases hx with e | hx
          · simp [e]
          · exact List.mem_cons_of_mem _ (ih m (by simp) x hx)
        · exact List.mem_cons_of_mem _ (ih l (by simp [hl]) x hx)

theorem split_lines_lf_last_aux (n : Nat) :
    ∀ s : List Nat, s.length ≤ n → ∀ l ∈ split_lines s, (10 : Nat) ∉ l.dropLast := by
  induction n with
  | zero =>
    intro s hs l hl
    have : s = [] := List.length_eq_zero.mp (by omega)
    subst this
    simp [split_lines] at hl
  | succ n ih =>
    intro s hs l hl
    cases s with
    | nil => simp [split_lines] at hl
    | cons b bs =>
      rw [split_lines_cons, List.mem_cons] at hl
      rcases hl with e | hl
      · subst e; exact read_line_lf_last _
      · have hlen := read_line_rest_length b bs
        simp only [List.length_cons] at hs
        exact ih _ (by omega) l hl

theorem split_lines_lf_last (s : List Nat) :
    ∀ l ∈ split_lines s, (10 : Nat) ∉ l.dropLast :=
  split_lines_lf_last_aux s.length s (le_refl _)

/-- The read loop on a stream, for any step budget above the stream length. -/
theorem read_loop_spec (size : List Nat → Nat) (fuel : Nat) :
    ∀ stream : List Nat, stream.length < fuel →
    ∃ r, read_loop size fuel stream = some r ∧
      r.lines = (split_lines stream).takeWhile (fun l => decide (l ≠ CRLF)) ∧
      r.log = r.lines.map (fun l => report (size l) l) ∧
      r.calls = r.lines.length + 1 ∧
      (CRLF ∈ split_lines stream → stream = r.lines.flatten ++ CRLF ++ r.network) ∧
      (CRLF ∉ split_lines stream → r.lines = split_lines stream ∧ r.network = []) := by
  induction fuel with
  | zero => intro stream h; omega
  | succ fuel ih =>
    intro stream h
    cases stream with
    | nil =>
      refine ⟨{ lines := [], log := [], calls := 1, network := [] }, ?_, ?_⟩
      · simp [read_loop, getline]
      · simp [split_lines]
    | cons b bs =>
      have hcmp := strcmp_CRLF_iff _ (read_line_lf_last (b :: bs))
      have happ := read_line_append (b :: bs)
      have hsplit := split_lines_cons b bs
      have hlen := read_line_rest_length b bs
      by_cases hl : (read_line (b :: bs)).1 = CRLF
      · refine ⟨{ lines := [], log := [], calls := 1,
                  network := (read_line (b :: bs)).2 }, ?_, ?_⟩
        · have h0 : strcmp (read_line (b :: bs)).1 CRLF = 0 := hcmp.2 hl
          simp [read_loop, getline, h0]
        · rw [hsplit]
          refine ⟨by simp [hl], by simp, by simp, ?_, ?_⟩
          · intro _
            simp only [List.flatten_nil, List.nil_append]
            rw [← hl]; exact happ.symm
          · intro hn; exact absurd (by simp [hl]) hn
      · simp only [List.length_cons] at h
        obtain ⟨t, ht, h1, h2, h3, h4, h5⟩ := ih (read_line (b :: bs)).2 (by omega)
        have hne : strcmp (read_line (b :: bs)).1 CRLF ≠ 0 := fun e => hl (hcmp.1 e)
        refine ⟨{ lines := (read_line (b :: bs)).1 :: t.lines
                  log := report (size (read_line (b :: bs)).1) (read_line (b :: bs)).1 :: t.log
                  calls := t.calls + 1
                  network := t.network }, ?_, ?_⟩
        · simp [read_loop, getline, hne, ht]
        · rw [hsplit]
          refine ⟨by simp [hl, h1], by simp [h2], by simp [h3], ?_, ?_⟩
          · intro hm
            simp only [List.mem_cons] at hm
            rcases hm with e | hm
            · exact absurd e.symm hl
            · have := h4 hm
              simp only [List.flatten_cons, List.append_assoc]
              simp only [List.append_assoc] at this
              rw [← this]; exact happ.symm
          · intro hn
            simp only [List.mem_cons, not_or] at hn
            obtain ⟨e1, e2⟩ := h5 hn.2
            simp [e1, e2]

/-! ## Lemmas on accept_connection -/

theorem accept_loop_retries (k : Nat) (fd : Nat) (rest : List AcceptOutcome) :
    ∀ (v : Int) (c : Nat),
      accept_loop (List.replicate k (AcceptOutcome.fail EINTR) ++ AcceptOutcome.ok fd :: rest)
        EINTR v c = Accepted.returned (fd : Int) (c + k + 1) rest := by
  induction k with
  | zero =>
    intro v c
    have h : ¬ ((fd : Int) = -1) := by omega
    simp [accept_loop, accept, SYSCALL_ERROR, h]
  | succ k ih =>
    intro v c
    simp only [List.replicate_succ, List.cons_append, accept_loop, accept, SYSCALL_ERROR]
    simp only [if_true, true_and, ne_eq, not_true_eq_false, if_false]
    refine (ih _ _).trans ?_
    congr 1
    omega

theorem accept_loop_fatal (k : Nat) (e : Nat) (he : e ≠ EINTR) (rest : List AcceptOutcome) :
    ∀ (v : Int) (c : Nat),
      accept_loop (List.replicate k (AcceptOutcome.fail EINTR) ++ AcceptOutcome.fail e :: rest)
        EINTR v c = Accepted.exited EXIT_FAILURE (c + k + 1) := by
  induction k with
  | zero =>
    intro v c
    simp [accept_loop, accept, SYSCALL_ERROR, he]
  | succ k ih =>
    intro v c
    simp only [List.replicate_succ, List.cons_append, accept_loop, accept, SYSCALL_ERROR]
    simp only [if_true, true_and, ne_eq, not_true_eq_false, if_false]
    refine (ih _ _).trans ?_
    congr 1
    omega

/-- Every outcome list is a run of EINTR failures followed by nothing, by a success, or
by a failure with another errno. -/
theorem accept_outcomes_shape (outcomes : List AcceptOutcome) :
    (∃ k, outcomes = List.replicate k (AcceptOutcome.fail EINTR)) ∨
    (∃ k fd rest, outcomes =
      List.replicate k (AcceptOutcome.fail EINTR) ++ AcceptOutcome.ok fd :: rest) ∨
    (∃ k e rest, e ≠ EINTR ∧ outcomes =
      List.replicate k (AcceptOutcome.fail EINTR) ++ AcceptOutcome.fail e :: rest) := by
  induction outcomes with
  | nil => exact Or.inl ⟨0, rfl⟩
  | cons o os ih =>
    cases o with
    | ok fd => exact Or.inr (Or.inl ⟨0, fd, os, rfl⟩)
    | fail e =>
      by_cases he : e = EINTR
      · subst he
        rcases ih with ⟨k, hk⟩ | ⟨k, fd, rest, hk⟩ | ⟨k, e, rest, hne, hk⟩
        · exact Or.inl ⟨k + 1, by rw [hk]; rfl⟩
        · exact Or.inr (Or.inl ⟨k + 1, fd, rest, by rw [hk]; rfl⟩)
        · exact Or.inr (Or.inr ⟨k + 1, e, rest, hne, by rw [hk]; rfl⟩)
      · exact Or.inr (Or.inr ⟨0, e, os, he, rfl⟩)

theorem accept_loop_blocked (k : Nat) :
    ∀ (v : Int) (c : Nat),
      accept_loop (List.replicate k (AcceptOutcome.fail EINTR)) EINTR v c
        = Accepted.blocked (c + k) := by
  induction k with
  | zero => intro v c; simp [accept_loop]
  | succ k ih =>
    intro v c
    simp only [List.replicate_succ, accept_loop, accept, SYSCALL_ERROR]
    simp only [if_true, true_and, ne_eq, not_true_eq_false, if_false]
    refine (ih _ _).trans ?_
    congr 1
    omega

theorem accept_connection_returned (outcomes : List AcceptOutcome) (uninit new_fd : Int)
    (calls : Nat) (rest : List AcceptOutcome)
    (h : accept_connection outcomes uninit = Accepted.returned new_fd calls rest) :
    ∃ (k : Nat) (fd : Nat), new_fd = (fd : Int) ∧ calls = k + 1 ∧
      outcomes = List.replicate k (AcceptOutcome.fail EINTR) ++ AcceptOutcome.ok fd :: rest := by
  unfold accept_connection at h
  rcases accept_outcomes_shape outcomes with ⟨k, hk⟩ | ⟨k, fd, rest2, hk⟩ | ⟨k, e, rest2, hne, hk⟩
  · rw [hk, accept_loop_blocked] at h; cases h
  · rw [hk, accept_loop_retries] at h
    injection h with h1 h2 h3
    subst h3
    exact ⟨k, fd, h1.symm, by omega, hk⟩
  · rw [hk, accept_loop_fatal k e hne] at h; cases h

/-! ## Lemmas on run_service -/

theorem fd_close_cons_self (open_fds : List Int) (fd : Int) (h : fd ∉ open_fds) :
    fd_close (fd :: open_fds) fd = open_fds := by
  unfold fd_close
  rw [List.filter_cons_of_neg (by simp)]
  rw [List.filter_eq_self]
  intro x hx
  simp only [ne_eq, decide_not, Bool.not_eq_true', decide_eq_false_iff_not]
  intro e; subst e; exact h hx

theorem not_mem_fd_close (open_fds : List Int) (fd : Int) : fd ∉ fd_close open_fds fd := by
  simp [fd_close]

theorem mem_fd_close (open_fds : List Int) (fd x : Int) (hx : x ∈ open_fds) (hne : x ≠ fd) :
    x ∈ fd_close open_fds fd := by
  simp [fd_close, hx, hne]

theorem after_fork_parent (sock_fd new_sock_fd pid : Int) (open_fds : List Int)
    (handler : Outcome) (h1 : ¬ (pid = -1)) (h0 : ¬ (pid = 0)) :
    after_fork sock_fd new_sock_fd pid open_fds handler
      = { open_fds := fd_close open_fds new_sock_fd, status := none, handled := none } := by
  simp [after_fork, SYSCALL_ERROR, h1, h0]

theorem after_fork_child (sock_fd new_fd : Int) (open_fds : List Int) (handler : Outcome)
    (hnew : new_fd ∉ open_fds) (hne : sock_fd ≠ new_fd) :
    worker_ok sock_fd open_fds (after_fork sock_fd new_fd 0 (new_fd :: open_fds) handler) := by
  have hat : fd_close (new_fd :: open_fds) sock_fd = new_fd :: fd_close open_fds sock_fd := by
    unfold fd_close
    rw [List.filter_cons_of_pos (by simpa using fun e => hne e.symm)]
  refine ⟨new_fd, fd_close (new_fd :: open_fds) sock_fd, ?_, not_mem_fd_close _ _, ?_, hnew,
    hat⟩
  · cases handler <;> simp [after_fork, SYSCALL_ERROR]
  · exact mem_fd_close _ _ _ (by simp) (fun e => hne e.symm)

theorem run_service_invariant (sock_fd uninit : Int) (n : Nat) :
    ∀ s : Service, sock_fd ∈ s.open_fds →
      (∀ fd : Nat, AcceptOutcome.ok fd ∈ s.accepts → (fd : Int) ∉ s.open_fds) →
      (∀ (pid : Nat) (hr : Outcome), ForkOutcome.ok pid hr ∈ s.forks → 0 < pid) →
      (∀ s2, run_service sock_fd uninit n s = Served.running s2 →
        s2.open_fds = s.open_fds) ∧
      (∀ s2 status, run_service sock_fd uninit n s = Served.accept_exit s2 status →
        s2.open_fds = s.open_fds) ∧
      (∀ s2 fd parent, run_service sock_fd uninit n s = Served.exited s2 fd parent →
        parent.status = some EXIT_FAILURE ∧ fd ∉ parent.open_fds ∧
        parent.open_fds = s.open_fds) ∧
      (∀ w ∈ (run_service sock_fd uninit n s).service.workers,
        w ∈ s.workers ∨ worker_ok sock_fd s.open_fds w) := by
  induction n with
  | zero =>
    intro s _ _ _
    refine ⟨?_, ?_, ?_, ?_⟩
    · intro s2 h; simp only [run_service] at h; cases h; rfl
    · intro s2 st h; simp [run_service] at h
    · intro s2 fd p h; simp [run_service] at h
    · intro w hw; exact Or.inl hw
  | succ n ih =>
    intro s hsock hfresh hpid
    cases hacc : accept_connection s.accepts uninit with
    | exited status calls =>
      simp only [run_service, hacc]
      refine ⟨?_, ?_, ?_, ?_⟩
      · intro s2 h; cases h
      · intro s2 st h; cases h; rfl
      · intro s2 fd p h; cases h
      · intro w hw; exact Or.inl hw
    | blocked calls =>
      simp only [run_service, hacc]
      refine ⟨?_, ?_, ?_, ?_⟩
      · intro s2 h; cases h
      · intro s2 st h; cases h
      · intro s2 fd p h; cases h
      · intro w hw; exact Or.inl hw
    | returned new_fd calls rest =>
      obtain ⟨k, fd, hfd, _, hout⟩ := accept_connection_returned _ _ _ _ _ hacc
      subst hfd
      have hnew : (fd : Int) ∉ s.open_fds := hfresh fd (by rw [hout]; simp)
      have hne : sock_fd ≠ (fd : Int) := fun e => hnew (e ▸ hsock)
      have hrest : ∀ fd2 : Nat, AcceptOutcome.ok fd2 ∈ rest → (fd2 : Int) ∉ s.open_fds :=
        fun fd2 h2 => hfresh fd2 (by rw [hout]; simp [h2])
      have hclose := fd_close_cons_self s.open_fds (fd : Int) hnew
      cases hf : s.forks with
      | nil =>
        simp only [run_service, hacc, hf]
        refine ⟨?_, ?_, ?_, ?_⟩
        · intro s2 h; cases h
        · intro s2 st h; cases h
        · intro s2 fd p h; cases h
        · intro w hw; exact Or.inl hw
      | cons f fs =>
        cases f with
        | fail =>
          simp only [run_service, hacc, hf, fork_parent, after_fork, SYSCALL_ERROR]
          simp only [if_true]
          refine ⟨?_, ?_, ?_, ?_⟩
          · intro s2 h; cases h
          · intro s2 st h; cases h
          · intro s2 fd2 p h
            cases h
            exact ⟨rfl, not_mem_fd_close _ _, hclose⟩
          · intro w hw; exact Or.inl hw
        | ok pid hr =>
          have hp : 0 < pid := hpid pid hr (by rw [hf]; simp)
          have hp1 : ¬ ((pid : Int) = -1) := by omega
          have hp0 : ¬ ((pid : Int) = 0) := by omega
          have hfs : ∀ (pid2 : Nat) (hr2 : Outcome), ForkOutcome.ok pid2 hr2 ∈ fs → 0 < pid2 :=
            fun pid2 hr2 h2 => hpid pid2 hr2 (by rw [hf]; simp [h2])
          have hchild := after_fork_child sock_fd (fd : Int) s.open_fds hr hnew hne
          simp only [run_service, hacc, hf, fork_parent, after_fork_parent _ _ _ _ _ hp1 hp0]
          rw [hclose]
          obtain ⟨i1, i2, i3, i4⟩ := ih
            { open_fds := s.open_fds, accepts := rest, forks := fs,
              workers := s.workers ++
                [after_fork sock_fd (fd : Int) 0 ((fd : Int) :: s.open_fds) hr] }
            hsock hrest hfs
          refine ⟨i1, i2, i3, ?_⟩
          intro w hw
          rcases i4 w hw with hmem | hok
          · simp only [List.mem_append, List.mem_singleton] at hmem
            rcases hmem with hmem | hw
            · exact Or.inl hmem
            · right
              subst hw
              exact hchild
          · exact Or.inr hok

theorem run_service_progress (sock_fd uninit : Int) (n : Nat) :
    ∀ (s : Service) (fds : List Nat) (pids : List (Nat × Outcome))
      (more_accepts : List AcceptOutcome) (more_forks : List ForkOutcome),
      fds.length = n → pids.length = n → (∀ pid ∈ pids, 0 < pid.1) →
      s.accepts = fds.map AcceptOutcome.ok ++ more_accepts →
      s.forks = pids.map (fun c => ForkOutcome.ok c.1 c.2) ++ more_forks →
      ∃ s2, run_service sock_fd uninit n s = Served.running s2 ∧
        s2.workers.length = s.workers.length + n ∧
        s2.accepts = more_accepts ∧ s2.forks = more_forks := by
  induction n with
  | zero =>
    intro s fds pids ma mf hf hp _ ha hk
    have e1 : fds = [] := List.length_eq_zero.mp hf
    have e2 : pids = [] := List.length_eq_zero.mp hp
    subst e1 e2
    exact ⟨s, rfl, rfl, by simpa using ha, by simpa using hk⟩
  | succ n ih =>
    intro s fds pids ma mf hf hp hpos ha hk
    match fds, pids, hf, hp, hpos, ha, hk with
    | fd :: fds, pid :: pids, hf, hp, hpos, ha, hk =>
      have hpid : 0 < pid.1 := hpos pid (by simp)
      have hp1 : ¬ ((pid.1 : Int) = -1) := by omega
      have hp0 : ¬ ((pid.1 : Int) = 0) := by omega
      have hacc : accept_connection s.accepts uninit
          = Accepted.returned (fd : Int) 1 (fds.map AcceptOutcome.ok ++ ma) := by
        rw [ha]
        have := accept_loop_retries 0 fd (fds.map AcceptOutcome.ok ++ ma) uninit 0
        simpa [accept_connection] using this
      simp only [List.map_cons, List.cons_append] at hk
      simp only [run_service, hacc, hk, fork_parent, after_fork_parent _ _ _ _ _ hp1 hp0]
      obtain ⟨s2, h1, h2, h3, h4⟩ := ih
        { open_fds := fd_close ((fd : Int) :: s.open_fds) (fd : Int)
          accepts := fds.map AcceptOutcome.ok ++ ma
          forks := pids.map (fun c => ForkOutcome.ok c.1 c.2) ++ mf
          workers := s.workers ++
            [after_fork sock_fd (fd : Int) 0 ((fd : Int) :: s.open_fds) pid.2] }
        fds pids ma mf (by simpa using hf) (by simpa using hp)
        (fun q hq => hpos q (List.mem_cons_of_mem _ hq)) rfl rfl
      refine ⟨s2, h1, ?_, h3, h4⟩
      rw [h2]
      simp only [List.length_append, List.length_singleton]
      omega

/-! ## Lemmas on create_service and server -/

theorem short_round_trip (P : Int) (hlo : 0 ≤ P) (hhi : P ≤ 65535) :
    ((short_to_uint16 (int_to_short P) : Nat) : Int) = P := by
  unfold short_to_uint16 int_to_short
  omega

theorem swap_bytes (x : Nat) (hx : x < 65536) :
    x / 256 % 256 = x / 256 ∧
    (x % 256 * 256 + x / 256) % 256 = x / 256 ∧
    (x % 256 * 256 + x / 256) / 256 = x % 256 := by
  have hb : x / 256 < 256 := by omega
  have ha : x % 256 < 256 := by omega
  generalize x / 256 = b at *
  generalize x % 256 = a at *
  refine ⟨by omega, by omega, by omega⟩

theorem ntohs_htons (little_endian : Bool) (x : Nat) (hx : x < 65536) :
    ntohs little_endian (htons little_endian x) = x := by
  obtain ⟨h1, h2, h3⟩ := swap_bytes x hx
  unfold ntohs htons
  cases little_endian
  · simp
  · simp only [if_true]
    rw [h1, h2, h3]
    have h4 : x % 256 % 256 = x % 256 := by omega
    rw [h4]
    omega

theorem uint16_memory_htons (little_endian : Bool) (x : Nat) (hx : x < 65536) :
    uint16_memory little_endian (htons little_endian x) = [x / 256, x % 256] := by
  obtain ⟨h1, h2, h3⟩ := swap_bytes x hx
  unfold uint16_memory htons
  cases little_endian
  · simp only [Bool.false_eq_true, if_false]
    rw [h1]
  · simp only [if_true]
    rw [h1, h2, h3]
    have h4 : x % 256 % 256 = x % 256 := by omega
    rw [h4]

/-- The bind call of server carries the sin_port computed from the narrowed port. -/
theorem server_bind_port (env : SysEnv) (cwd : String) (port queue_size : Int) :
    (∀ fd sp ret, Event.bind fd sp ret ∈ (server env cwd port queue_size).trace →
      sp = htons env.little_endian (short_to_uint16 (int_to_short port))) ∧
    (env.chdir ≠ SYSCALL_ERROR → env.socket ≠ SYSCALL_ERROR →
      env.setsockopt ≠ SYSCALL_ERROR →
      Event.bind env.socket (htons env.little_endian (short_to_uint16 (int_to_short port)))
        env.bind ∈ (server env cwd port queue_size).trace) := by
  constructor
  · intro fd sp ret h
    unfold server create_service at h
    by_cases h1 : env.chdir = SYSCALL_ERROR
    · simp [h1] at h
    · by_cases h2 : env.socket = SYSCALL_ERROR
      · simp [h1, h2] at h
      · by_cases h3 : env.setsockopt = SYSCALL_ERROR
        · simp [h1, h2, h3] at h
        · by_cases h4 : env.bind = SYSCALL_ERROR
          · simp [h1, h2, h3, h4] at h; exact h.2.1
          · by_cases h5 : env.listen env.socket queue_size = SYSCALL_ERROR
            · simp [h1, h2, h3, h4, h5] at h; exact h.2.1
            · by_cases h6 : env.sigaction = SYSCALL_ERROR
              · simp [h1, h2, h3, h4, h5, h6] at h; exact h.2.1
              · simp [h1, h2, h3, h4, h5, h6] at h; exact h.2.1
  · intro h1 h2 h3
    unfold server create_service
    by_cases h4 : env.bind = SYSCALL_ERROR
    · simp [h1, h2, h3, h4]
    · by_cases h5 : env.listen env.socket queue_size = SYSCALL_ERROR
      · simp [h1, h2, h3, h4, h5]
      · by_cases h6 : env.sigaction = SYSCALL_ERROR
        · simp [h1, h2, h3, h4, h5, h6]
        · simp [h1, h2, h3, h4, h5, h6]

/-- The call run_service(fd) is reached exactly when chdir, socket, setsockopt, bind,
listen and sigaction all succeed; the backlog goes to listen as it is. -/
theorem server_serving_iff (env : SysEnv) (cwd : String) (port queue_size : Int) :
    ((server env cwd port queue_size).serving ≠ none ↔
      env.chdir ≠ SYSCALL_ERROR ∧ env.socket ≠ SYSCALL_ERROR ∧
      env.setsockopt ≠ SYSCALL_ERROR ∧ env.bind ≠ SYSCALL_ERROR ∧
      env.listen env.socket queue_size ≠ SYSCALL_ERROR ∧
      env.sigaction ≠ SYSCALL_ERROR) ∧
    ((server env cwd port queue_size).serving ≠ none →
      (server env cwd port queue_size).serving = some env.socket ∧
      Event.listen env.socket queue_size (env.listen env.socket queue_size)
        ∈ (server env cwd port queue_size).trace) ∧
    ((server env cwd port queue_size).serving = none →
      Event.exit EXIT_FAILURE ∈ (server env cwd port queue_size).trace) := by
  unfold server create_service
  by_cases h1 : env.chdir = SYSCALL_ERROR
  · simp [h1]
  · by_cases h2 : env.socket = SYSCALL_ERROR
    · simp [h1, h2]
    · by_cases h3 : env.setsockopt = SYSCALL_ERROR
      · simp [h1, h2, h3]
      · by_cases h4 : env.bind = SYSCALL_ERROR
        · simp [h1, h2, h3, h4]
        · by_cases h5 : env.listen env.socket queue_size = SYSCALL_ERROR
          · simp [h1, h2, h3, h4, h5]
          · by_cases h6 : env.sigaction = SYSCALL_ERROR
            · simp [h1, h2, h3, h4, h5, h6]
            · simp [h1, h2, h3, h4, h5, h6]

/-- The status line that server prints once every start-up call has succeeded is the
%d text of the port narrowed to short. -/
theorem server_status_line (env : SysEnv) (cwd : String) (port queue_size : Int)
    (h : (server env cwd port queue_size).serving ≠ none) :
    Event.write Dest.original (status_line (int_to_short port))
      ∈ (server env cwd port queue_size).trace := by
  unfold server create_service at h ⊢
  by_cases h1 : env.chdir = SYSCALL_ERROR
  · simp [h1] at h
  · by_cases h2 : env.socket = SYSCALL_ERROR
    · simp [h1, h2] at h
    · by_cases h3 : env.setsockopt = SYSCALL_ERROR
      · simp [h1, h2, h3] at h
      · by_cases h4 : env.bind = SYSCALL_ERROR
        · simp [h1, h2, h3, h4] at h
        · by_cases h5 : env.listen env.socket queue_size = SYSCALL_ERROR
          · simp [h1, h2, h3, h4, h5] at h
          · by_cases h6 : env.sigaction = SYSCALL_ERROR
            · simp [h1, h2, h3, h4, h5, h6] at h
            · simp [h1, h2, h3, h4, h5, h6]

/-- What %d prints for the narrowed port: the port itself up to 32767, and a minus sign
followed by 65536 - P above. -/
theorem status_line_narrowed (P : Int) (hlo : 0 ≤ P) (hhi : P ≤ 65535) :
    (P ≤ 32767 → status_line (int_to_short P)
      = bytes "Server listening on port: " ++ fmt_ld P.toNat ++ bytes "\n") ∧
    (32767 < P → status_line (int_to_short P)
      = bytes "Server listening on port: " ++ 45 :: fmt_ld (65536 - P).toNat ++ bytes "\n") := by
  constructor
  · intro h
    have e : int_to_short P = P := by unfold int_to_short; omega
    have hn : ¬ (P < 0) := by omega
    have ha : P.natAbs = P.toNat := by omega
    simp [status_line, fmt_d, e, hn, ha]
  · intro h
    have e : int_to_short P = P - 65536 := by unfold int_to_short; omega
    have hn : P - 65536 < 0 := by omega
    have ha : (P - 65536).natAbs = (65536 - P).toNat := by omega
    simp only [status_line, fmt_d, e, hn, if_true, ha]

/-! ## Lemmas on handle_request -/

theorem handle_sigchld_drains (running : List Nat) :
    ∀ (terminated : List Nat) (fuel : Nat), (∀ p ∈ terminated, 0 < p) →
      terminated.length < fuel →
      handle_sigchld fuel { terminated := terminated, running := running }
        = some ({ terminated := [], running := running }, terminated.length + 1) := by
  intro terminated
  induction terminated with
  | nil =>
    intro fuel _ hf
    cases fuel with
    | zero => simp at hf
    | succ fuel => cases running <;> simp [handle_sigchld, waitpid]
  | cons p ps ih =>
    intro fuel hp hf
    cases fuel with
    | zero => simp at hf
    | succ fuel =>
      have hpos : 0 < p := hp p (by simp)
      have hps : ∀ q ∈ ps, 0 < q := fun q hq => hp q (List.mem_cons_of_mem _ hq)
      simp only [List.length_cons] at hf
      have := ih fuel hps (by omega)
      simp [handle_sigchld, waitpid, hpos, this]

/-! ## The claims -/

/-- C1: for every client byte stream and every step budget above its length, the read
loop of handle_request ends, and the lines its body reports are the lines of the stream
(split the way getline splits) in front of the first line equal to CRLF, in order, each
printed by the report format; it makes one getline call more than it reports lines;
when a CRLF line exists the stream is the reported lines, the CRLF line and the bytes
left unread, and when none exists every line is reported and nothing is left.  A line
of the stream compares equal to CRLF under strcmp exactly when it is the two bytes CR
LF.  When the stream has no NUL byte the text printed for a line ends with the whole
line.  The stream "hello\r\n\r\n" yields the one reported line "hello\r\n". -/
theorem read_loop_reports_lines_before_terminator (size : List Nat → Nat)
    (stream : List Nat) (fuel : Nat) (h : stream.length < fuel) :
    (∃ r, read_loop size fuel stream = some r ∧
      r.lines = (split_lines stream).takeWhile (fun l => decide (l ≠ CRLF)) ∧
      r.log = r.lines.map (fun l => report (size l) l) ∧
      r.calls = r.lines.length + 1 ∧
      (CRLF ∈ split_lines stream → stream = r.lines.flatten ++ CRLF ++ r.network) ∧
      (CRLF ∉ split_lines stream → r.lines = split_lines stream ∧ r.network = []) ∧
      ((0 : Nat) ∉ stream → r.log = r.lines.map (fun l =>
        bytes "Received " ++ fmt_ld (size l) ++ bytes " (" ++ fmt_ld l.length ++ bytes "): "
          ++ l))) ∧
    (∀ l ∈ split_lines stream, strcmp l CRLF = 0 ↔ l = CRLF) ∧
    (split_lines (bytes "hello\r\n\r\n")).takeWhile (fun l => decide (l ≠ CRLF))
      = [bytes "hello\r\n"] := by
  refine ⟨?_, ?_, by decide⟩
  · obtain ⟨r, hr, h1, h2, h3, h4, h5⟩ := read_loop_spec size fuel stream h
    refine ⟨r, hr, h1, h2, h3, h4, h5, ?_⟩
    intro h0
    rw [h2]
    apply List.map_congr_left
    intro l hl
    have hmem : l ∈ split_lines stream := by
      rw [h1] at hl
      exact (List.takeWhile_prefix _).subset hl
    have hnul : (0 : Nat) ∉ l := fun hx => h0 (mem_split_lines_sub stream l hmem 0 hx)
    simp [report, strlen, cstr_of_no_nul l hnul]
  · intro l hl
    exact strcmp_CRLF_iff l (split_lines_lf_last stream l hl)

/-- C1 at the stream "hello\r\n\r\n" (10 bytes) with a budget of 11 steps. -/
theorem read_loop_reports_hello :
    (bytes "hello\r\n\r\n").length < 11 ∧
    ∃ r, read_loop (fun _ => 120) 11 (bytes "hello\r\n\r\n") = some r ∧
      r.lines = [bytes "hello\r\n"] ∧ r.calls = 2 ∧ r.network = [] := by
  have hlen : (bytes "hello\r\n\r\n").length < 11 := by decide
  obtain ⟨⟨r, hr, h1, _, h3, h4, _, _⟩, _, hh⟩ :=
    read_loop_reports_lines_before_terminator (fun _ => 120) (bytes "hello\r\n\r\n") 11 hlen
  refine ⟨hlen, r, hr, ?_, ?_, ?_⟩
  · rw [h1, hh]
  · rw [h3, h1, hh]; rfl
  · have hm : CRLF ∈ split_lines (bytes "hello\r\n\r\n") := by decide
    have := h4 hm
    rw [h1, hh] at this
    have h2 : bytes "hello\r\n\r\n" = [bytes "hello\r\n"].flatten ++ CRLF ++ [] := by decide
    rw [h2] at this
    exact (List.append_cancel_left this).symm

/-- C3: after k interrupted accept calls (errno EINTR) and one successful call that
returns fd, accept_connection returns fd, having made k + 1 calls; it terminates the
process only when, after some interrupted calls, accept fails with an errno other than
EINTR (and it does terminate then); a value it returns is the descriptor of a
successful accept call, so it is never -1. -/
theorem accept_connection_retries_on_eintr :
    (∀ (k fd : Nat) (rest : List AcceptOutcome) (uninit : Int),
      accept_connection
        (List.replicate k (AcceptOutcome.fail EINTR) ++ AcceptOutcome.ok fd :: rest) uninit
        = Accepted.returned (fd : Int) (k + 1) rest) ∧
    (∀ (outcomes : List AcceptOutcome) (uninit status : Int) (calls : Nat),
      accept_connection outcomes uninit = Accepted.exited status calls ↔
        status = EXIT_FAILURE ∧ ∃ k e rest, e ≠ EINTR ∧ calls = k + 1 ∧
          outcomes = List.replicate k (AcceptOutcome.fail EINTR)
            ++ AcceptOutcome.fail e :: rest) ∧
    (∀ (outcomes : List AcceptOutcome) (uninit new_fd : Int) (calls : Nat)
      (rest : List AcceptOutcome),
      accept_connection outcomes uninit = Accepted.returned new_fd calls rest →
        new_fd ≠ -1 ∧ ∃ (k : Nat) (fd : Nat), new_fd = (fd : Int) ∧ calls = k + 1 ∧
          outcomes = List.replicate k (AcceptOutcome.fail EINTR)
            ++ AcceptOutcome.ok fd :: rest) := by
  refine ⟨?_, ?_, ?_⟩
  · intro k fd rest uninit
    unfold accept_connection
    rw [accept_loop_retries]
    simp
  · intro outcomes uninit status calls
    unfold accept_connection
    constructor
    · intro h
      rcases accept_outcomes_shape outcomes with ⟨k, hk⟩ | ⟨k, fd, rest, hk⟩ | ⟨k, e, rest, hne, hk⟩
      · rw [hk, accept_loop_blocked] at h; cases h
      · rw [hk, accept_loop_retries] at h; cases h
      · rw [hk, accept_loop_fatal k e hne] at h
        injection h with h1 h2
        exact ⟨h1.symm, k, e, rest, hne, by omega, hk⟩
    · rintro ⟨hs, k, e, rest, hne, hc, hk⟩
      rw [hk, accept_loop_fatal k e hne, hs, hc]
      simp
  · intro outcomes uninit new_fd calls rest h
    unfold accept_connection at h
    rcases accept_outcomes_shape outcomes with ⟨k, hk⟩ | ⟨k, fd, rest2, hk⟩ | ⟨k, e, rest2, hne, hk⟩
    · rw [hk, accept_loop_blocked] at h; cases h
    · rw [hk, accept_loop_retries] at h
      injection h with h1 h2 h3
      subst h3
      refine ⟨by omega, k, fd, h1.symm, by omega, hk⟩
    · rw [hk, accept_loop_fatal k e hne] at h; cases h

/-- C3 at two interruptions followed by a successful accept of descriptor 5. -/
theorem accept_connection_retries_twice :
    accept_connection
      [AcceptOutcome.fail EINTR, AcceptOutcome.fail EINTR, AcceptOutcome.ok 5,
        AcceptOutcome.fail 9] 77
      = Accepted.returned 5 3 [AcceptOutcome.fail 9] :=
  accept_connection_retries_on_eintr.1 2 5 [AcceptOutcome.fail 9] 77

/-- C4: in a state whose terminated workers have positive pids, and with a step budget
above the number of terminated workers, handle_sigchld ends after a number
of waitpid calls that is at most one more than the number of terminated workers, leaves
no terminated worker unreclaimed, and leaves the running workers as they were. -/
theorem handle_sigchld_reaps_all_terminated (c : Children) (fuel : Nat)
    (hpos : ∀ p ∈ c.terminated, 0 < p) (hfuel : c.terminated.length < fuel) :
    ∃ after calls, handle_sigchld fuel c = some (after, calls) ∧
      calls ≤ c.terminated.length + 1 ∧
      after.terminated = [] ∧
      after.running = c.running := by
  refine ⟨{ terminated := [], running := c.running }, c.terminated.length + 1, ?_,
    le_refl _, rfl, rfl⟩
  exact handle_sigchld_drains c.running c.terminated fuel hpos hfuel

/-- C4 at two terminated workers (pids 101, 102) and one running worker (pid 103). -/
theorem handle_sigchld_reaps_two :
    (∀ p ∈ [101, 102], 0 < p) ∧ [101, 102].length < 3 ∧
    ∃ after calls,
      handle_sigchld 3 { terminated := [101, 102], running := [103] } = some (after, calls) ∧
      calls ≤ 3 ∧ after.terminated = [] ∧ after.running = [103] :=
  ⟨by decide, by decide,
    handle_sigchld_reaps_all_terminated { terminated := [101, 102], running := [103] } 3
      (by decide) (by decide)⟩

/-- C6 on the code: when dup fails, when the redirecting dup2 fails and when the
restoring dup2 fails, handle_request(7) ends the worker with EXIT_FAILURE and its trace
holds no close of the Connection Handle; only the fdopen failure closes the handle
before it exits. -/
theorem handle_request_failure_paths :
    handle_request
        { dup_stdout := -1, dup2_redirect := 1, dup2_restore := 1, fdopen_ok := true,
          stream := [], size := fun _ => 120 } 1 7
      = some { trace := [Event.dup 1 (-1),
                         Event.perror "Error duplicating the stdout file descriptor",
                         Event.exit 1]
               outcome := Outcome.exited 1 } ∧
    handle_request
        { dup_stdout := 5, dup2_redirect := -1, dup2_restore := 1, fdopen_ok := true,
          stream := [], size := fun _ => 120 } 1 7
      = some { trace := [Event.dup 1 5, Event.dup2 7 1 (-1),
                         Event.perror "Error redirecting stdout to the network socket",
                         Event.exit 1]
               outcome := Outcome.exited 1 } ∧
    handle_request
        { dup_stdout := 5, dup2_redirect := 1, dup2_restore := -1, fdopen_ok := true,
          stream := [], size := fun _ => 120 } 1 7
      = some { trace := [Event.dup 1 5, Event.dup2 7 1 1,
                         Event.write Dest.connection response_header,
                         Event.write Dest.connection response_body,
                         Event.dup2 5 1 (-1),
                         Event.perror "Error restoring the stdout file descriptor",
                         Event.exit 1]
               outcome := Outcome.exited 1 } ∧
    handle_request
        { dup_stdout := 5, dup2_redirect := 1, dup2_restore := 1, fdopen_ok := false,
          stream := [], size := fun _ => 120 } 1 7
      = some { trace := [Event.dup 1 5, Event.dup2 7 1 1,
                         Event.write Dest.connection response_header,
                         Event.write Dest.connection response_body,
                         Event.dup2 5 1 1,
                         Event.fdopen 7 false,
                         Event.perror "Error opening the socket as a file stream",
                         Event.close 7,
                         Event.exit 1]
               outcome := Outcome.exited 1 } := by
  refine ⟨?_, ?_, ?_, ?_⟩ <;> decide

/-- C5: let the parent enter run_service holding the listening socket, let every
descriptor that accept returns be one the parent does not hold, and let fork return
positive pids in the parent.  Then after any number of iterations that the parent
survives, its open descriptors are those it entered with: the listening socket is among
them and no accepted Connection Handle is.  When fork fails the parent exits with
EXIT_FAILURE and the accepted handle is already closed at that exit.  Every worker
created has closed the listening socket when it calls handle_request: its descriptors
at that call are its own Connection Handle and the descriptors the parent holds other
than the listening socket.  When accept and fork succeed n times the parent survives n
iterations and has created n workers. -/
theorem run_service_descriptor_sets (sock_fd uninit : Int) (n : Nat) (s : Service)
    (hsock : sock_fd ∈ s.open_fds)
    (hfresh : ∀ fd : Nat, AcceptOutcome.ok fd ∈ s.accepts → (fd : Int) ∉ s.open_fds)
    (hpid : ∀ (pid : Nat) (handler : Outcome), ForkOutcome.ok pid handler ∈ s.forks → 0 < pid) :
    (∀ s2, run_service sock_fd uninit n s = Served.running s2 →
      sock_fd ∈ s2.open_fds ∧ s2.open_fds = s.open_fds ∧
      ∀ fd : Nat, AcceptOutcome.ok fd ∈ s.accepts → (fd : Int) ∉ s2.open_fds) ∧
    (∀ s2 new_sock_fd parent,
      run_service sock_fd uninit n s = Served.exited s2 new_sock_fd parent →
      parent.status = some EXIT_FAILURE ∧ new_sock_fd ∉ parent.open_fds ∧
      sock_fd ∈ parent.open_fds) ∧
    (∀ w ∈ (run_service sock_fd uninit n s).service.workers,
      w ∈ s.workers ∨
      ∃ conn at_handle, w.handled = some (conn, at_handle) ∧
        sock_fd ∉ at_handle ∧ conn ∈ at_handle ∧ conn ∉ s.open_fds ∧
        at_handle = conn :: fd_close s.open_fds sock_fd) ∧
    (∀ (fds : List Nat) (pids : List (Nat × Outcome)) (more_accepts : List AcceptOutcome)
      (more_forks : List ForkOutcome),
      fds.length = n → pids.length = n →
      s.accepts = fds.map AcceptOutcome.ok ++ more_accepts →
      s.forks = pids.map (fun c => ForkOutcome.ok c.1 c.2) ++ more_forks →
      ∃ s2, run_service sock_fd uninit n s = Served.running s2 ∧
        s2.workers.length = s.workers.length + n) := by
  obtain ⟨i1, _, i3, i4⟩ := run_service_invariant sock_fd uninit n s hsock hfresh hpid
  refine ⟨?_, ?_, ?_, ?_⟩
  · intro s2 h
    have e := i1 s2 h
    refine ⟨e ▸ hsock, e, ?_⟩
    intro fd hfd
    rw [e]
    exact hfresh fd hfd
  · intro s2 fd parent h
    obtain ⟨a, b, c⟩ := i3 s2 fd parent h
    exact ⟨a, b, c ▸ hsock⟩
  · intro w hw
    rcases i4 w hw with h | h
    · exact Or.inl h
    · exact Or.inr h
  · intro fds pids ma mf hf hp ha hk
    have hpos : ∀ pid ∈ pids, 0 < pid.1 := by
      intro pid hmem
      apply hpid pid.1 pid.2
      rw [hk]
      simp only [List.mem_append, List.mem_map]
      exact Or.inl ⟨pid, hmem, rfl⟩
    obtain ⟨s2, h1, h2, _, _⟩ :=
      run_service_progress sock_fd uninit n s fds pids ma mf hf hp hpos ha hk
    exact ⟨s2, h1, h2⟩

/-- C5 at a parent that holds descriptors 0 to 3 (3 is the listening socket), two
connections accepted as descriptor 4 (the first after an interrupted accept) and two
successful forks. -/
theorem two_connections_leave_parent_clean :
    ∃ s2, run_service 3 0 2
        { open_fds := [0, 1, 2, 3]
          accepts := [AcceptOutcome.fail EINTR, AcceptOutcome.ok 4, AcceptOutcome.ok 4]
          forks := [ForkOutcome.ok 100 Outcome.returned, ForkOutcome.ok 101 (Outcome.exited 1)]
          workers := [] } = Served.running s2 ∧
      (3 : Int) ∈ s2.open_fds ∧ s2.open_fds = [0, 1, 2, 3] ∧ s2.workers.length = 2 := by
  have hrun : run_service 3 0 2
      { open_fds := [0, 1, 2, 3]
        accepts := [AcceptOutcome.fail EINTR, AcceptOutcome.ok 4, AcceptOutcome.ok 4]
        forks := [ForkOutcome.ok 100 Outcome.returned, ForkOutcome.ok 101 (Outcome.exited 1)]
        workers := [] }
      = Served.running
        { open_fds := [0, 1, 2, 3], accepts := [], forks := []
          workers := [{ open_fds := [0, 1, 2], status := some 0,
                        handled := some (4, [4, 0, 1, 2]) },
                      { open_fds := [4, 0, 1, 2], status := some 1,
                        handled := some (4, [4, 0, 1, 2]) }] } := by
    decide
  have h := (run_service_descriptor_sets 3 0 2
    { open_fds := [0, 1, 2, 3]
      accepts := [AcceptOutcome.fail EINTR, AcceptOutcome.ok 4, AcceptOutcome.ok 4]
      forks := [ForkOutcome.ok 100 Outcome.returned, ForkOutcome.ok 101 (Outcome.exited 1)]
      workers := [] }
    (by decide)
    (by
      intro fd hfd
      simp only [List.mem_cons, List.mem_singleton, AcceptOutcome.ok.injEq, reduceCtorEq,
        false_or, or_self, List.not_mem_nil, or_false] at hfd
      subst hfd
      decide)
    (by
      intro pid handler hpid
      simp only [List.mem_cons, ForkOutcome.ok.injEq, List.not_mem_nil, or_false] at hpid
      omega)).1 _ hrun
  exact ⟨_, hrun, h.1, h.2.1, rfl⟩

/-- C8: for every port P with 1024 <= P <= 49151 passed to server, every bind call that
server makes carries a sin_port whose two bytes in memory are P in network byte order
(high byte first) and that ntohs turns back into P, on a little-endian and on a
big-endian host; the bind call is made once chdir, socket and setsockopt have
succeeded; and for P above 32767 the short parameter of create_service holds the
negative value P - 65536. -/
theorem create_service_binds_configured_port (env : SysEnv) (cwd : String)
    (queue_size P : Int) (hlo : 1024 ≤ P) (hhi : P ≤ 49151) :
    (∀ fd sp ret, Event.bind fd sp ret ∈ (server env cwd P queue_size).trace →
      ((ntohs env.little_endian sp : Nat) : Int) = P ∧
      uint16_memory env.little_endian sp = [(P / 256).toNat, (P % 256).toNat]) ∧
    (env.chdir ≠ SYSCALL_ERROR → env.socket ≠ SYSCALL_ERROR →
      env.setsockopt ≠ SYSCALL_ERROR →
      ∃ sp, Event.bind env.socket sp env.bind ∈ (server env cwd P queue_size).trace) ∧
    (32767 < P → int_to_short P = P - 65536 ∧ int_to_short P < 0) := by
  have hrt := short_round_trip P (by omega) (by omega)
  have hlt : short_to_uint16 (int_to_short P) < 65536 := by omega
  obtain ⟨hb1, hb2⟩ := server_bind_port env cwd P queue_size
  refine ⟨?_, ?_, ?_⟩
  · intro fd sp ret h
    have e := hb1 fd sp ret h
    subst e
    rw [ntohs_htons _ _ hlt, uint16_memory_htons _ _ hlt]
    refine ⟨hrt, ?_⟩
    congr 1
    · omega
    · congr 1
      omega
  · intro h1 h2 h3
    exact ⟨_, hb2 h1 h2 h3⟩
  · intro h
    unfold int_to_short
    omega

/-- C8 at port 40000 (above 32767) on the host where every start-up call succeeds. -/
theorem create_service_binds_port_40000 :
    ((ntohs true (htons true (short_to_uint16 (int_to_short 40000))) : Nat) : Int) = 40000 ∧
    uint16_memory true (htons true (short_to_uint16 (int_to_short 40000))) = [156, 64] ∧
    int_to_short 40000 = -25536 := by
  have h := create_service_binds_configured_port env_all_succeed "site" 5 40000
    (by decide) (by decide)
  have hmem : Event.bind 3 (htons true (short_to_uint16 (int_to_short 40000))) 0
      ∈ (server env_all_succeed "site" 40000 5).trace := by decide
  have h1 := h.1 _ _ _ hmem
  exact ⟨h1.1, h1.2, (h.2.2 (by decide)).1⟩

/-- C9 on the code: started with the valid port 40000 on a host where every start-up
call succeeds, server binds port 40000 and reaches run_service, and the status line it
prints is "Server listening on port: -25536" and not "Server listening on port: 40000":
the short parameter of create_service is printed with %d. -/
theorem status_line_port_40000 :
    (server env_all_succeed "site" 40000 5).serving = some 3 ∧
    Event.bind 3 (htons true 40000) 0 ∈ (server env_all_succeed "site" 40000 5).trace ∧
    Event.write Dest.original (bytes "Server listening on port: -25536\n")
      ∈ (server env_all_succeed "site" 40000 5).trace ∧
    Event.write Dest.original (bytes "Server listening on port: 40000\n")
      ∉ (server env_all_succeed "site" 40000 5).trace := by
  refine ⟨?_, ?_, ?_, ?_⟩ <;> decide

/-- C10 as stated fails: called with backlog 0, and with backlog -1, on a host where
every start-up call succeeds, server reaches run_service(3), having passed the backlog
to listen. -/
theorem server_starts_with_backlog_zero :
    (server env_all_succeed "site" 8080 0).serving = some 3 ∧
    Event.listen 3 0 0 ∈ (server env_all_succeed "site" 8080 0).trace ∧
    (server env_all_succeed "site" 8080 (-1)).serving = some 3 ∧
    Event.listen 3 (-1) 0 ∈ (server env_all_succeed "site" 8080 (-1)).trace := by
  refine ⟨?_, ?_, ?_, ?_⟩ <;> decide

/-- C10 as amended: for every backlog q < 1, server(cwd, port, q) makes no check of q;
it reaches run_service exactly when chdir, socket, setsockopt, bind, listen with
backlog q, and sigaction all succeed, and then it has passed q unchanged to listen and
run_service gets the descriptor that socket returned; when one of the calls fails the
process exits with EXIT_FAILURE before run_service. -/
theorem server_backlog_unchecked (env : SysEnv) (cwd : String) (port q : Int)
    (_hq : q < 1) :
    ((server env cwd port q).serving ≠ none ↔
      env.chdir ≠ SYSCALL_ERROR ∧ env.socket ≠ SYSCALL_ERROR ∧
      env.setsockopt ≠ SYSCALL_ERROR ∧ env.bind ≠ SYSCALL_ERROR ∧
      env.listen env.socket q ≠ SYSCALL_ERROR ∧
      env.sigaction ≠ SYSCALL_ERROR) ∧
    ((server env cwd port q).serving ≠ none →
      (server env cwd port q).serving = some env.socket ∧
      Event.listen env.socket q (env.listen env.socket q) ∈ (server env cwd port q).trace) ∧
    ((server env cwd port q).serving = none →
      Event.exit EXIT_FAILURE ∈ (server env cwd port q).trace) :=
  server_serving_iff env cwd port q

/-- C10 as amended, at backlog 0 on a host whose listen rejects a backlog below 1. -/
theorem server_backlog_zero_rejected_by_listen :
    (0 : Int) < 1 ∧
    (server { env_all_succeed with listen := fun _ q => if q < 1 then -1 else 0 }
      "site" 8080 0).serving = none ∧
    Event.exit EXIT_FAILURE ∈
      (server { env_all_succeed with listen := fun _ q => if q < 1 then -1 else 0 }
        "site" 8080 0).trace := by
  have h := server_backlog_unchecked
    { env_all_succeed with listen := fun _ q => if q < 1 then -1 else 0 } "site" 8080 0
    (by decide)
  have hnone : (server { env_all_succeed with listen := fun _ q => if q < 1 then -1 else 0 }
      "site" 8080 0).serving = none := by decide
  exact ⟨by decide, hnone, h.2.2 hnone⟩

end CServer
